import Mathlib

/-!
Verification of the OP-PatchStudio snapshot/transition core.

Shallow embedding of the snapshots feature:
* `src/features/snapshots/types.ts` — MIDI message and parameter types,
  the fixed OP-XY parameter registry and the generated track parameters;
* `src/features/snapshots/ClockEngine.ts` — the musical clock;
* `src/features/snapshots/SnapshotEngine.ts` — the snapshot store and
  current-value shadow;
* `src/features/snapshots/TransitionEngine.ts` — transition execution;
* `src/features/snapshots/midiUtils.ts` — BPM/MIDI value conversions.

JavaScript numbers are modelled as `Nat` where the source only ever holds
non-negative integers (bars, beats, tick counts, MIDI values) and as `Rat`
where genuine division occurs (BPM, milliseconds, easing).  `Math.round x`
is `⌊x + 1/2⌋`, `Math.ceil` is `Int.ceil`, `Math.min`/`Math.max` are
`min`/`max`.  JavaScript `Map`s are insertion-ordered association lists;
`Map.set` replaces in place or appends, matching V8 semantics.
-/

set_option maxHeartbeats 1000000

/-- `MIDIMessageType` from types.ts. -/
inductive MIDIMessageType where
  | cc
  | pc
  | note
  | nrpn
deriving DecidableEq, Repr

/-- `MIDIMessage` from types.ts: optional fields are `Option`, absent by
default (JS `undefined`). -/
structure MIDIMessage where
  type : MIDIMessageType
  channel : Nat
  value : Nat
  cc : Option Nat := none
  note : Option Nat := none
  velocity : Option Nat := none
  nrpnMsb : Option Nat := none
  nrpnLsb : Option Nat := none
deriving DecidableEq, Repr

/-- Category tag of `OpxyParameter` from types.ts. -/
inductive ParameterCategory where
  | scene
  | tempo
  | track
  | groove
  | transport
deriving DecidableEq, Repr

/-- `OpxyParameter` from types.ts. -/
structure OpxyParameter where
  id : String
  name : String
  type : MIDIMessageType
  channel : Nat
  cc : Option Nat := none
  minValue : Nat
  maxValue : Nat
  defaultValue : Nat
  description : String
  category : ParameterCategory
deriving DecidableEq, Repr

/-- `OPXY_PARAMETERS` from types.ts: a `Record<string, OpxyParameter>`,
modelled as an insertion-ordered association list. -/
def OPXY_PARAMETERS : List (String × OpxyParameter) :=
  [ ("DELAYED_SCENE",
     { id := "delayed_scene", name := "Delayed Scene", type := .cc, channel := 1,
       cc := some 82, minValue := 0, maxValue := 127, defaultValue := 0,
       description := "Trigger scene change at end of bar", category := .scene }),
    ("PREV_SCENE",
     { id := "prev_scene", name := "Previous Scene", type := .cc, channel := 1,
       cc := some 83, minValue := 0, maxValue := 127, defaultValue := 0,
       description := "Jump to previous scene", category := .scene }),
    ("NEXT_SCENE",
     { id := "next_scene", name := "Next Scene", type := .cc, channel := 1,
       cc := some 84, minValue := 0, maxValue := 127, defaultValue := 0,
       description := "Jump to next scene", category := .scene }),
    ("SCENE_DIRECT",
     { id := "scene_direct", name := "Scene Direct", type := .cc, channel := 1,
       cc := some 85, minValue := 0, maxValue := 127, defaultValue := 0,
       description := "Jump directly to scene (0-127)", category := .scene }),
    ("TEMPO",
     { id := "tempo", name := "Tempo", type := .cc, channel := 1,
       cc := some 80, minValue := 0, maxValue := 127, defaultValue := 64,
       description := "Master tempo control", category := .tempo }),
    ("GROOVE",
     { id := "groove", name := "Groove", type := .cc, channel := 1,
       cc := some 81, minValue := 0, maxValue := 127, defaultValue := 64,
       description := "Groove amount", category := .groove }) ]

/-- `generateTrackParameters` from types.ts: volume CC7, mute CC9, pan CC10
for tracks 1..16 (channel = track number). -/
def generateTrackParameters : List (String × OpxyParameter) :=
  (List.range 16).flatMap fun i =>
    let n := i + 1
    [ (s!"TRACK_{n}_VOLUME",
       { id := s!"track_{n}_volume", name := s!"Track {n} Volume", type := .cc,
         channel := n, cc := some 7, minValue := 0, maxValue := 127,
         defaultValue := 100, description := s!"Volume for track {n}",
         category := .track }),
      (s!"TRACK_{n}_MUTE",
       { id := s!"track_{n}_mute", name := s!"Track {n} Mute", type := .cc,
         channel := n, cc := some 9, minValue := 0, maxValue := 127,
         defaultValue := 0, description := s!"Mute track {n}",
         category := .track }),
      (s!"TRACK_{n}_PAN",
       { id := s!"track_{n}_pan", name := s!"Track {n} Pan", type := .cc,
         channel := n, cc := some 10, minValue := 0, maxValue := 127,
         defaultValue := 64, description := s!"Pan for track {n}",
         category := .track }) ]

/-- Key lookup in a spread record `{...a, ...b}`: later entries shadow
earlier ones, so search from the end. -/
def recordGet (r : List (String × OpxyParameter)) (key : String) : Option OpxyParameter :=
  (r.reverse.find? fun e => e.1 == key).map (·.2)

/-- The combined registry `{ ...OPXY_PARAMETERS, ...generateTrackParameters() }`
used by `SnapshotEngine.parameterToMidiMessage` and `getAllOpxyParameters`. -/
def allOpxyParameters : List (String × OpxyParameter) :=
  OPXY_PARAMETERS ++ generateTrackParameters

/-- JavaScript `.toUpperCase()` on the ASCII parameter ids: uppercase every
character.  (The standard library's uppercase function is not
kernel-reducible, so the map over the character list is spelled out.) -/
def toUpperCase (s : String) : String := ⟨s.data.map Char.toUpper⟩

/-- `SnapshotEngine.parameterToMidiMessage` (SnapshotEngine.ts:317-330):
look up `parameterId.toUpperCase()` in the combined registry; unknown ids
give `none`; otherwise build `{type, channel, value, cc}`. -/
def parameterToMidiMessage (parameterId : String) (value : Nat) : Option MIDIMessage :=
  (recordGet allOpxyParameters (toUpperCase parameterId)).map fun paramDef =>
    { type := paramDef.type, channel := paramDef.channel, value := value,
      cc := paramDef.cc }

/-- `Math.round` on a non-negative JS number: round half away from zero,
which for non-negative arguments is `⌊x + 1/2⌋`. -/
def jsRound (x : ℚ) : ℤ := ⌊x + 1 / 2⌋

/-- `bpmToMidiValue` (midiUtils.ts:91-96). -/
def bpmToMidiValue (bpm : ℚ) : ℤ :=
  let minBpm : ℚ := 40
  let maxBpm : ℚ := 240
  let clampedBpm := max minBpm (min maxBpm bpm)
  jsRound ((clampedBpm - minBpm) / (maxBpm - minBpm) * 127)

/-- `midiValueToBpm` (midiUtils.ts:101-105). -/
def midiValueToBpm (midiValue : ℚ) : ℚ :=
  let minBpm : ℚ := 40
  let maxBpm : ℚ := 240
  minBpm + midiValue / 127 * (maxBpm - minBpm)

/-- `TransitionEngine.easeOutCubic` (TransitionEngine.ts:382-384). -/
def easeOutCubic (t : ℚ) : ℚ := 1 - (1 - t) ^ 3

/-- Per-frame progress of the interpolation loop
(TransitionEngine.ts:163-164): `Math.min(elapsed / duration, 1.0)`. -/
def interpolationProgress (elapsed duration : ℚ) : ℚ :=
  min (elapsed / duration) 1

/-- `ClockSource` from types.ts. -/
inductive ClockSource where
  | internal
  | midi
deriving DecidableEq, Repr

/-- `ClockState` from types.ts.  `bpm` is `ℚ` (JS number under division);
beats, bars, subdivisions and timestamps are `Nat`. -/
structure ClockState where
  isRunning : Bool
  source : ClockSource
  bpm : ℚ
  currentBeat : Nat
  currentBar : Nat
  beatsPerBar : Nat
  ppqn : Nat
  lastTickTime : Nat
deriving DecidableEq, Repr

/-- The `ClockEngine` object (ClockEngine.ts): the `state` record plus the
private fields `tickCount`, `lastBeat`, `lastBar` (initialised to -1) and
the internal interval timer, modelled by its presence (`intervalId !== null`). -/
structure ClockEngine where
  state : ClockState
  tickCount : Nat
  lastBeat : Int
  lastBar : Int
  intervalActive : Bool
deriving DecidableEq, Repr

/-- The engine built by `new ClockEngine()` with no `initialState` override
(ClockEngine.ts:24-36). -/
def ClockEngine.initial : ClockEngine :=
  { state :=
      { isRunning := false, source := .internal, bpm := 120, currentBeat := 0,
        currentBar := 0, beatsPerBar := 4, ppqn := 24, lastTickTime := 0 },
    tickCount := 0, lastBeat := -1, lastBar := -1, intervalActive := false }

/-- `startInternalClock` (ClockEngine.ts:256-264): only the timer handle is
observable in the model. -/
def ClockEngine.startInternalClock (e : ClockEngine) : ClockEngine :=
  { e with intervalActive := true }

/-- `stopInternalClock` (ClockEngine.ts:266-271). -/
def ClockEngine.stopInternalClock (e : ClockEngine) : ClockEngine :=
  { e with intervalActive := false }

/-- `start` (ClockEngine.ts:45-54); `now` stands for `Date.now()`. -/
def ClockEngine.start (now : Nat) (e : ClockEngine) : ClockEngine :=
  if e.state.isRunning then e
  else
    let e := { e with state := { e.state with isRunning := true, lastTickTime := now } }
    if e.state.source = .internal then e.startInternalClock else e

/-- `stop` (ClockEngine.ts:59-64). -/
def ClockEngine.stop (e : ClockEngine) : ClockEngine :=
  if !e.state.isRunning then e
  else ({ e with state := { e.state with isRunning := false } }).stopInternalClock

/-- `reset` (ClockEngine.ts:69-75). -/
def ClockEngine.reset (e : ClockEngine) : ClockEngine :=
  { e with
    state := { e.state with currentBeat := 0, currentBar := 0 },
    tickCount := 0, lastBeat := -1, lastBar := -1 }

/-- `advanceBeat` (ClockEngine.ts:273-305); event emission has no effect on
engine state beyond `lastBeat`/`lastBar`. -/
def ClockEngine.advanceBeat (e : ClockEngine) : ClockEngine :=
  let e := { e with state := { e.state with currentBeat := e.state.currentBeat + 1 } }
  let e :=
    if e.state.currentBeat ≥ e.state.beatsPerBar then
      let s := { e.state with currentBeat := 0, currentBar := e.state.currentBar + 1 }
      let e := { e with state := s }
      { e with lastBar := e.state.currentBar }
    else e
  if e.lastBeat ≠ (e.state.currentBeat : Int) then
    { e with lastBeat := (e.state.currentBeat : Int) }
  else e

/-- `processMidiClockTick` (ClockEngine.ts:80-100). -/
def ClockEngine.processMidiClockTick (now : Nat) (e : ClockEngine) : ClockEngine :=
  if e.state.source ≠ .midi then e
  else
    let e := { e with state := { e.state with lastTickTime := now } }
    let e := { e with tickCount := e.tickCount + 1 }
    if e.tickCount ≥ e.state.ppqn then
      ({ e with tickCount := 0 }).advanceBeat
    else e

/-- `processMidiStart` (ClockEngine.ts:105-108). -/
def ClockEngine.processMidiStart (now : Nat) (e : ClockEngine) : ClockEngine :=
  e.reset.start now

/-- `processMidiStop` (ClockEngine.ts:113-115). -/
def ClockEngine.processMidiStop (e : ClockEngine) : ClockEngine :=
  e.stop

/-- `processMidiContinue` (ClockEngine.ts:120-122). -/
def ClockEngine.processMidiContinue (now : Nat) (e : ClockEngine) : ClockEngine :=
  e.start now

/-- `setClockSource` (ClockEngine.ts:127-139). -/
def ClockEngine.setClockSource (source : ClockSource) (now : Nat) (e : ClockEngine) : ClockEngine :=
  let wasRunning := e.state.isRunning
  let e := if wasRunning then e.stop else e
  let e := { e with state := { e.state with source := source } }
  if wasRunning then e.start now else e

/-- `setBpm` (ClockEngine.ts:144-151): clamp to [20, 300]; restarting the
interval timer leaves its observable presence unchanged. -/
def ClockEngine.setBpm (bpm : ℚ) (e : ClockEngine) : ClockEngine :=
  let e := { e with state := { e.state with bpm := max 20 (min 300 bpm) } }
  if e.state.isRunning ∧ e.state.source = .internal then
    e.stopInternalClock.startInternalClock
  else e

/-- The quantization kinds accepted by `getTimeUntilNextQuantization`
(`'beat' | 'bar' | '2bar' | '4bar'`). -/
inductive QuantizationKind where
  | beat
  | bar
  | twoBar
  | fourBar
deriving DecidableEq, Repr

/-- `getTimeUntilNextQuantization` (ClockEngine.ts:164-192). -/
def ClockEngine.getTimeUntilNextQuantization (e : ClockEngine) (quantization : QuantizationKind) : ℚ :=
  let msPerBeat : ℚ := 60 / e.state.bpm * 1000
  let beatsToWait : ℚ :=
    match quantization with
    | .beat => 1
    | .bar => (e.state.beatsPerBar : ℚ) - (e.state.currentBeat : ℚ)
    | .twoBar =>
        let beatsIn2Bars : ℚ := (e.state.beatsPerBar : ℚ) * 2
        let currentBeatIn2BarCycle : ℚ :=
          ((e.state.currentBar % 2 : Nat) : ℚ) * (e.state.beatsPerBar : ℚ)
            + (e.state.currentBeat : ℚ)
        beatsIn2Bars - currentBeatIn2BarCycle
    | .fourBar =>
        let beatsIn4Bars : ℚ := (e.state.beatsPerBar : ℚ) * 4
        let currentBeatIn4BarCycle : ℚ :=
          ((e.state.currentBar % 4 : Nat) : ℚ) * (e.state.beatsPerBar : ℚ)
            + (e.state.currentBeat : ℚ)
        beatsIn4Bars - currentBeatIn4BarCycle
  beatsToWait * msPerBeat

/-- `getTimeUntilBar` (ClockEngine.ts:197-207). -/
def ClockEngine.getTimeUntilBar (e : ClockEngine) (targetBar : Nat) : ℚ :=
  if targetBar ≤ e.state.currentBar then 0
  else
    let barsToWait : ℚ := (targetBar : ℚ) - (e.state.currentBar : ℚ)
    let beatsToWait : ℚ := barsToWait * (e.state.beatsPerBar : ℚ) - (e.state.currentBeat : ℚ)
    let msPerBeat : ℚ := 60 / e.state.bpm * 1000
    beatsToWait * msPerBeat

/-- `getNextCycleBar` (ClockEngine.ts:212-216):
`Math.ceil((currentBar + 1) / cycleLengthBars) * cycleLengthBars`. -/
def ClockEngine.getNextCycleBar (currentBar cycleLengthBars : Nat) : ℤ :=
  ⌈((currentBar : ℚ) + 1) / (cycleLengthBars : ℚ)⌉ * (cycleLengthBars : ℤ)

/-- `SnapshotParameter` from types.ts. -/
structure SnapshotParameter where
  parameterId : String
  value : Nat
  isEnabled : Bool
deriving DecidableEq, Repr

/-- `Snapshot` from types.ts.  The optional `oneShotMessages` field defaults
to `[]` (the engine treats a missing list as empty). -/
structure Snapshot where
  id : String
  name : String
  bank : Nat
  slot : Nat
  parameters : List SnapshotParameter
  oneShotMessages : List MIDIMessage := []
  color : Option String := none
  createdAt : Nat
  modifiedAt : Nat
deriving DecidableEq, Repr

/-- `Map.get` on a JS `Map<string, number>` modelled as an insertion-ordered
association list. -/
def mapGet (m : List (String × Nat)) (key : String) : Option Nat :=
  (m.find? fun e => e.1 == key).map (·.2)

/-- `Map.set`: replace the existing entry in place, else append. -/
def mapSet (m : List (String × Nat)) (key : String) (value : Nat) : List (String × Nat) :=
  if m.any fun e => e.1 == key then
    m.map fun e => if e.1 == key then (key, value) else e
  else
    m ++ [(key, value)]

/-- `Map.set` on the snapshot store `Map<string, Snapshot>` (keyed by
`Snapshot.id`). -/
def snapshotsSet (l : List Snapshot) (s : Snapshot) : List Snapshot :=
  if l.any fun t => t.id == s.id then
    l.map fun t => if t.id == s.id then s else t
  else
    l ++ [s]

/-- The `SnapshotEngine` object (SnapshotEngine.ts:24-30): the snapshot
`Map` and the current-value shadow. -/
structure SnapshotEngine where
  snapshots : List Snapshot
  currentValues : List (String × Nat)
deriving DecidableEq, Repr

/-- `getSnapshot` (SnapshotEngine.ts:92-94). -/
def SnapshotEngine.getSnapshot (se : SnapshotEngine) (id : String) : Option Snapshot :=
  se.snapshots.find? fun s => s.id == id

/-- `createSnapshot` (SnapshotEngine.ts:39-60); `id` stands for the fresh
`uuidv4()` and `now` for `Date.now()`; returns the new engine state and the
created snapshot. -/
def SnapshotEngine.createSnapshot (se : SnapshotEngine) (bank slot : Nat)
    (name : String) (id : String) (now : Nat) : SnapshotEngine × Snapshot :=
  let snapshot : Snapshot :=
    { id := id, name := name, bank := bank, slot := slot, parameters := [],
      oneShotMessages := [], createdAt := now, modifiedAt := now }
  ({ se with snapshots := snapshotsSet se.snapshots snapshot }, snapshot)

/-- `deleteSnapshot` (SnapshotEngine.ts:142-144): `Map.delete` by key. -/
def SnapshotEngine.deleteSnapshot (se : SnapshotEngine) (id : String) : SnapshotEngine :=
  { se with snapshots := se.snapshots.filter fun t => !(t.id == id) }

/-- The body of `updateSnapshotParameter` acting on the parameter list
(SnapshotEngine.ts:195-211): `findIndex` then replace the first matching
entry, else push; the value is clamped with `Math.max(0, Math.min(127, v))`. -/
def upsertParameter (params : List SnapshotParameter) (parameterId : String)
    (value : Nat) (isEnabled : Bool) : List SnapshotParameter :=
  match params with
  | [] => [{ parameterId := parameterId, value := max 0 (min 127 value), isEnabled := isEnabled }]
  | p :: rest =>
      if p.parameterId == parameterId then
        { parameterId := parameterId, value := max 0 (min 127 value), isEnabled := isEnabled } :: rest
      else
        p :: upsertParameter rest parameterId value isEnabled

/-- `updateSnapshotParameter` (SnapshotEngine.ts:185-215): the found snapshot
object is mutated in place, so the store keeps it under the same key. -/
def SnapshotEngine.updateSnapshotParameter (se : SnapshotEngine) (snapshotId parameterId : String)
    (value : Nat) (isEnabled : Bool) (now : Nat) : SnapshotEngine × Bool :=
  match se.getSnapshot snapshotId with
  | none => (se, false)
  | some snapshot =>
      let updated := { snapshot with
                       parameters := upsertParameter snapshot.parameters parameterId value isEnabled,
                       modifiedAt := now }
      ({ se with snapshots := se.snapshots.map fun t => if t.id == snapshotId then updated else t },
       true)

/-- `updateCurrentValue` (SnapshotEngine.ts:258-260). -/
def SnapshotEngine.updateCurrentValue (se : SnapshotEngine) (parameterId : String)
    (value : Nat) : SnapshotEngine :=
  { se with currentValues := mapSet se.currentValues parameterId (max 0 (min 127 value)) }

/-- `getCurrentValue` (SnapshotEngine.ts:265-267). -/
def SnapshotEngine.getCurrentValue (se : SnapshotEngine) (parameterId : String) : Option Nat :=
  mapGet se.currentValues parameterId

/-- `getSnapshotMidiMessages` (SnapshotEngine.ts:290-312): encode every
enabled parameter (unknown ids are skipped), then append the one-shot
messages. -/
def SnapshotEngine.getSnapshotMidiMessages (se : SnapshotEngine) (snapshotId : String) : List MIDIMessage :=
  match se.getSnapshot snapshotId with
  | none => []
  | some snapshot =>
      (snapshot.parameters.filterMap fun param =>
        if param.isEnabled then parameterToMidiMessage param.parameterId param.value else none)
        ++ snapshot.oneShotMessages

/-- `getInterpolationTargets` (SnapshotEngine.ts:336-349): a `Map` built from
the enabled parameters in list order (later duplicates overwrite). -/
def SnapshotEngine.getInterpolationTargets (se : SnapshotEngine) (snapshotId : String) : List (String × Nat) :=
  match se.getSnapshot snapshotId with
  | none => []
  | some snapshot =>
      snapshot.parameters.foldl
        (fun targets param =>
          if param.isEnabled then mapSet targets param.parameterId param.value else targets)
        []

/-- `TransitionMode` from types.ts. -/
inductive TransitionMode where
  | jump
  | drop
deriving DecidableEq, Repr

/-- `ScheduledTransition` from types.ts. -/
structure ScheduledTransition where
  snapshot : Snapshot
  mode : TransitionMode
  targetBar : Option Nat := none
  targetBeat : Option Nat := none
  scheduledAt : Nat
  executeAt : ℚ
deriving DecidableEq, Repr

/-- `InterpolationState` from types.ts. -/
structure InterpolationState where
  active : Bool
  snapshot : Snapshot
  startValues : List (String × Nat)
  targetValues : List (String × Nat)
  startTime : Nat
  duration : ℚ
  parametersToInterpolate : List String
deriving DecidableEq, Repr

/-- The `TransitionEngine` object (TransitionEngine.ts:27-43): the two timer
handles are modelled by their presence.  Emitted MIDI messages and completion
callbacks are returned by the operations as output lists. -/
structure TransitionEngine where
  clockEngine : ClockEngine
  snapshotEngine : SnapshotEngine
  scheduledTransition : Option ScheduledTransition := none
  interpolationState : Option InterpolationState := none
  interpolationTimerActive : Bool := false
  transitionTimerActive : Bool := false
deriving DecidableEq, Repr

/-- `stopInterpolationLoop` (TransitionEngine.ts:207-212). -/
def TransitionEngine.stopInterpolationLoop (te : TransitionEngine) : TransitionEngine :=
  { te with interpolationTimerActive := false }

/-- `cancelActiveTransition` (TransitionEngine.ts:287-302): clear the
scheduled-transition timer and record, stop the interpolation loop and drop
the interpolation state.  The snapshot engine (store and shadow) is untouched. -/
def TransitionEngine.cancelActiveTransition (te : TransitionEngine) : TransitionEngine :=
  let te := { te with transitionTimerActive := false, scheduledTransition := none }
  let te := te.stopInterpolationLoop
  { te with interpolationState := none }

/-- `getScheduledTransition` (TransitionEngine.ts:307-309). -/
def TransitionEngine.getScheduledTransition (te : TransitionEngine) : Option ScheduledTransition :=
  te.scheduledTransition

/-- `getInterpolationState` (TransitionEngine.ts:314-316). -/
def TransitionEngine.getInterpolationState (te : TransitionEngine) : Option InterpolationState :=
  te.interpolationState

/-- `isTransitionActive` (TransitionEngine.ts:321-323):
`scheduledTransition !== null || interpolationState?.active === true`. -/
def TransitionEngine.isTransitionActive (te : TransitionEngine) : Bool :=
  te.scheduledTransition.isSome ||
    (match te.interpolationState with
     | some st => st.active
     | none => false)

/-- `executeDropImmediate` (TransitionEngine.ts:250-278): send every message
of the snapshot, update the shadow from the interpolation targets, fire the
completion callback, clear the scheduled record.  The `repeatMode` branch is
an explicit placeholder in the source (lines 272-277) and performs no action.
Returns (new engine, messages delivered to the sink, completion callbacks). -/
def TransitionEngine.executeDropImmediate (te : TransitionEngine) (snapshot : Snapshot)
    (repeatMode : Bool) : TransitionEngine × List MIDIMessage × List Snapshot :=
  let messages := te.snapshotEngine.getSnapshotMidiMessages snapshot.id
  let targets := te.snapshotEngine.getInterpolationTargets snapshot.id
  let se := targets.foldl (fun se t => se.updateCurrentValue t.1 t.2) te.snapshotEngine
  let te := { te with snapshotEngine := se, scheduledTransition := none }
  (te, messages, [snapshot])

/-- `sendParameterValue` (TransitionEngine.ts:332-343): create a temporary
snapshot at bank 0, slot 0, upsert the parameter, encode, send the first
message if any, delete the temporary snapshot.  `freshId` stands for the
`uuidv4()` drawn inside `createSnapshot`. -/
def TransitionEngine.sendParameterValue (te : TransitionEngine) (parameterId : String)
    (value : Nat) (freshId : String) (now : Nat) : TransitionEngine × List MIDIMessage :=
  let (se, snapshot) := te.snapshotEngine.createSnapshot 0 0 "temp" freshId now
  let (se, _) := se.updateSnapshotParameter snapshot.id parameterId value true now
  let messages := se.getSnapshotMidiMessages snapshot.id
  let sent := match messages with
              | m :: _ => [m]
              | [] => []
  let se := se.deleteSnapshot snapshot.id
  ({ te with snapshotEngine := se }, sent)

/-- C3: for every clock state and every integer `k ≥ 1`,
`getNextCycleBar(k)` returns the smallest multiple of `k` strictly greater
than `current_bar`; in particular the returned bar index is strictly
greater than `current_bar` and divisible by `k`. -/
theorem getNextCycleBar_smallest_multiple (bar k : Nat) (hk : 1 ≤ k) :
    (bar : ℤ) < ClockEngine.getNextCycleBar bar k ∧
    (k : ℤ) ∣ ClockEngine.getNextCycleBar bar k ∧
    ∀ m : ℤ, (k : ℤ) ∣ m → (bar : ℤ) < m → ClockEngine.getNextCycleBar bar k ≤ m := by
  have hk1 : (1 : ℚ) ≤ (k : ℚ) := by exact_mod_cast hk
  have hk0 : (0 : ℚ) < (k : ℚ) := by linarith
  unfold ClockEngine.getNextCycleBar
  have hle : ((bar : ℚ) + 1) / (k : ℚ) ≤ ((⌈((bar : ℚ) + 1) / (k : ℚ)⌉ : ℤ) : ℚ) :=
    Int.le_ceil _
  have hmul : (bar : ℚ) + 1 ≤ ((⌈((bar : ℚ) + 1) / (k : ℚ)⌉ : ℤ) : ℚ) * (k : ℚ) :=
    (div_le_iff hk0).mp hle
  have hmulZ : (bar : ℤ) + 1 ≤ ⌈((bar : ℚ) + 1) / (k : ℚ)⌉ * (k : ℤ) := by
    exact_mod_cast hmul
  refine ⟨by linarith, ⟨⌈((bar : ℚ) + 1) / (k : ℚ)⌉, by ring⟩, ?_⟩
  intro m hdvd hlt
  obtain ⟨j, rfl⟩ := hdvd
  have hj : (bar : ℤ) + 1 ≤ (k : ℤ) * j := by omega
  have hjQ : ((bar : ℚ) + 1) ≤ (j : ℚ) * (k : ℚ) := by
    have : ((bar : ℤ) : ℚ) + 1 ≤ ((k : ℤ) : ℚ) * (j : ℚ) := by exact_mod_cast hj
    push_cast at this ⊢
    linarith
  have hceil : ⌈((bar : ℚ) + 1) / (k : ℚ)⌉ ≤ j := by
    apply Int.ceil_le.mpr
    exact (div_le_iff hk0).mpr hjQ
  calc ⌈((bar : ℚ) + 1) / (k : ℚ)⌉ * (k : ℤ) ≤ j * (k : ℤ) := by
        apply mul_le_mul_of_nonneg_right hceil
        positivity
    _ = (k : ℤ) * j := mul_comm _ _

/-- Witness for C3 at `current_bar = 5`, `k = 4`: the result exceeds 5, is
divisible by 4, and is at most the multiple 8. -/
theorem getNextCycleBar_smallest_multiple_witness :
    (5 : ℤ) < ClockEngine.getNextCycleBar 5 4 ∧
    (4 : ℤ) ∣ ClockEngine.getNextCycleBar 5 4 ∧
    ClockEngine.getNextCycleBar 5 4 ≤ 8 := by
  obtain ⟨h1, h2, h3⟩ := getNextCycleBar_smallest_multiple 5 4 (by norm_num)
  exact ⟨h1, h2, h3 8 (by decide) (by decide)⟩

/-- C7: for Jump interpolation with duration `d > 0`, the per-frame eased
progress `1 - (1 - min(elapsed/d, 1))³` equals 0 at `elapsed = 0`, equals 1
for every `elapsed ≥ d`, and is monotonically non-decreasing in `elapsed`. -/
theorem jump_eased_progress_spec (d : ℚ) (hd : 0 < d) :
    easeOutCubic (interpolationProgress 0 d) = 0 ∧
    (∀ e : ℚ, d ≤ e → easeOutCubic (interpolationProgress e d) = 1) ∧
    ∀ e f : ℚ, 0 ≤ e → e ≤ f →
      easeOutCubic (interpolationProgress e d) ≤ easeOutCubic (interpolationProgress f d) := by
  refine ⟨?_, ?_, ?_⟩
  · unfold interpolationProgress easeOutCubic
    rw [zero_div, min_eq_left (by norm_num)]
    norm_num
  · intro e he
    unfold interpolationProgress easeOutCubic
    rw [min_eq_right ((one_le_div hd).mpr he)]
    norm_num
  · intro e f _ hef
    unfold interpolationProgress easeOutCubic
    have h1 : e / d ≤ f / d := by gcongr
    have hpq : min (e / d) 1 ≤ min (f / d) 1 := min_le_min h1 le_rfl
    have hq1 : min (f / d) 1 ≤ 1 := min_le_right _ _
    have hcube : (1 - min (f / d) 1) ^ 3 ≤ (1 - min (e / d) 1) ^ 3 :=
      pow_le_pow_left (by linarith) (by linarith) 3
    linarith

/-- Witness for C7 at `d = 1000` with elapsed times 0, 1500, 250 ≤ 750. -/
theorem jump_eased_progress_spec_witness :
    easeOutCubic (interpolationProgress 0 1000) = 0 ∧
    easeOutCubic (interpolationProgress 1500 1000) = 1 ∧
    easeOutCubic (interpolationProgress 250 1000) ≤ easeOutCubic (interpolationProgress 750 1000) := by
  obtain ⟨h1, h2, h3⟩ := jump_eased_progress_spec 1000 (by norm_num)
  exact ⟨h1, h2 1500 (by norm_num), h3 250 750 (by norm_num) (by norm_num)⟩

/-- C9: for every integer `v ∈ [0,127]`, `bpmToMidiValue (midiValueToBpm v) = v`;
and for every BPM value `b ∈ [40,240]`, `midiValueToBpm (bpmToMidiValue b)`
differs from `b` by at most 1. -/
theorem bpm_midi_roundtrip :
    (∀ v : Nat, v ≤ 127 → bpmToMidiValue (midiValueToBpm (v : ℚ)) = (v : ℤ)) ∧
    ∀ b : ℚ, 40 ≤ b → b ≤ 240 → |midiValueToBpm ((bpmToMidiValue b : ℤ) : ℚ) - b| ≤ 1 := by
  constructor
  · intro v hv
    have hv' : (v : ℚ) ≤ 127 := by exact_mod_cast hv
    have h0 : (0 : ℚ) ≤ (v : ℚ) := by positivity
    have hdiv : (v : ℚ) / 127 ≤ 1 := (div_le_one (by norm_num)).mpr hv'
    have hdiv0 : (0 : ℚ) ≤ (v : ℚ) / 127 := by positivity
    simp only [bpmToMidiValue, midiValueToBpm, jsRound]
    rw [min_eq_right (by linarith), max_eq_right (by linarith)]
    have hX : (40 + (v : ℚ) / 127 * (240 - 40) - 40) / (240 - 40) * 127 = (v : ℚ) := by
      field_simp
      ring
    rw [hX, Int.floor_eq_iff]
    constructor
    · push_cast
      linarith
    · push_cast
      linarith
  · intro b hb1 hb2
    simp only [bpmToMidiValue, midiValueToBpm, jsRound]
    rw [min_eq_right hb2, max_eq_right hb1]
    have h1 : ((⌊(b - 40) / (240 - 40) * 127 + 1 / 2⌋ : ℤ) : ℚ) ≤ (b - 40) / (240 - 40) * 127 + 1 / 2 :=
      Int.floor_le _
    have h2 : (b - 40) / (240 - 40) * 127 + 1 / 2 < (⌊(b - 40) / (240 - 40) * 127 + 1 / 2⌋ : ℤ) + 1 :=
      Int.lt_floor_add_one _
    rw [abs_le]
    constructor <;> [linarith; linarith]

/-- Witness for C9 at `v = 64` and `b = 120`. -/
theorem bpm_midi_roundtrip_witness :
    bpmToMidiValue (midiValueToBpm ((64 : Nat) : ℚ)) = ((64 : Nat) : ℤ) ∧
    |midiValueToBpm ((bpmToMidiValue 120 : ℤ) : ℚ) - 120| ≤ 1 := by
  obtain ⟨h1, h2⟩ := bpm_midi_roundtrip
  exact ⟨h1 64 (by norm_num), h2 120 (by norm_num) (by norm_num)⟩

/-- Duration in ms of one quantization period of kind `q` at the engine's
BPM: one beat, one bar, two bars, four bars respectively. -/
def quantizationPeriod (e : ClockEngine) (q : QuantizationKind) : ℚ :=
  let msPerBeat : ℚ := 60 / e.state.bpm * 1000
  match q with
  | .beat => msPerBeat
  | .bar => (e.state.beatsPerBar : ℚ) * msPerBeat
  | .twoBar => (e.state.beatsPerBar : ℚ) * 2 * msPerBeat
  | .fourBar => (e.state.beatsPerBar : ℚ) * 4 * msPerBeat

/-- The clock's (bar, beat) position lies on a boundary of kind `q`.  This
is the granularity at which `getTimeUntilNextQuantization` reads the
position: the sub-beat tick accumulator is not consulted by that query. -/
def onQuantizationBoundary (e : ClockEngine) (q : QuantizationKind) : Prop :=
  match q with
  | .beat => True
  | .bar => e.state.currentBeat = 0
  | .twoBar => e.state.currentBeat = 0 ∧ e.state.currentBar % 2 = 0
  | .fourBar => e.state.currentBeat = 0 ∧ e.state.currentBar % 4 = 0

/-- Shared shape of the quantization-range argument: a positive wait of `w`
beats out of a period of `W` beats, scaled by a positive ms-per-beat. -/
theorem mul_period_spec (ms w W : ℚ) (hms : 0 < ms) (hw : 0 < w) (hW : w ≤ W) :
    0 < w * ms ∧ w * ms ≤ W * ms ∧ (w * ms = W * ms ↔ w = W) :=
  ⟨mul_pos hw hms, mul_le_mul_of_nonneg_right hW hms.le,
   ⟨fun h => mul_right_cancel₀ (ne_of_gt hms) h, fun h => by rw [h]⟩⟩

/-- Counterexample to C2 as stated: the freshly constructed clock (BPM 120)
sits exactly on a bar boundary — bar 0, beat 0, tick accumulator 0 — yet
`getTimeUntilNextQuantization('bar')` returns a full bar (2000 ms), not 0. -/
theorem getTimeUntilNextQuantization_nonzero_on_boundary :
    ClockEngine.initial.state.currentBeat = 0 ∧
    ClockEngine.initial.state.currentBar = 0 ∧
    ClockEngine.initial.tickCount = 0 ∧
    (20 : ℚ) ≤ ClockEngine.initial.state.bpm ∧
    ClockEngine.initial.state.bpm ≤ 300 ∧
    ClockEngine.initial.getTimeUntilNextQuantization .bar = 2000 := by
  refine ⟨rfl, rfl, rfl, by norm_num [ClockEngine.initial], by norm_num [ClockEngine.initial], ?_⟩
  norm_num [ClockEngine.initial, ClockEngine.getTimeUntilNextQuantization]

/-- C2 (amended): for every clock state with `bpm ∈ [20,300]` and beat
position inside the bar, `getTimeUntilNextQuantization(q)` never returns 0:
it returns a value in `(0, period_of_q]`, and returns the full period
exactly when the (bar, beat) position is on a boundary of kind `q` (the
sub-beat tick accumulator is ignored by the query). -/
theorem getTimeUntilNextQuantization_range (e : ClockEngine) (q : QuantizationKind)
    (hbpm1 : 20 ≤ e.state.bpm) (hbpm2 : e.state.bpm ≤ 300)
    (hbeat : e.state.currentBeat < e.state.beatsPerBar) :
    0 < e.getTimeUntilNextQuantization q ∧
    e.getTimeUntilNextQuantization q ≤ quantizationPeriod e q ∧
    (e.getTimeUntilNextQuantization q = quantizationPeriod e q ↔ onQuantizationBoundary e q) := by
  have hbpm0 : (0 : ℚ) < e.state.bpm := by linarith
  have hms : (0 : ℚ) < 60 / e.state.bpm * 1000 := by positivity
  have hB1 : 1 ≤ e.state.beatsPerBar := by omega
  have hbQ : (e.state.currentBeat : ℚ) + 1 ≤ (e.state.beatsPerBar : ℚ) := by
    exact_mod_cast hbeat
  have hb0 : (0 : ℚ) ≤ (e.state.currentBeat : ℚ) := by positivity
  cases q with
  | beat =>
      simp only [ClockEngine.getTimeUntilNextQuantization, quantizationPeriod,
        onQuantizationBoundary]
      rw [one_mul]
      exact ⟨hms, le_rfl, by simp⟩
  | bar =>
      simp only [ClockEngine.getTimeUntilNextQuantization, quantizationPeriod,
        onQuantizationBoundary]
      obtain ⟨h1, h2, h3⟩ := mul_period_spec (60 / e.state.bpm * 1000)
        ((e.state.beatsPerBar : ℚ) - (e.state.currentBeat : ℚ))
        (e.state.beatsPerBar : ℚ) hms (by linarith) (by linarith)
      refine ⟨h1, h2, h3.trans ?_⟩
      rw [sub_eq_self]
      exact_mod_cast Iff.rfl
  | twoBar =>
      simp only [ClockEngine.getTimeUntilNextQuantization, quantizationPeriod,
        onQuantizationBoundary]
      have hr2 : e.state.currentBar % 2 ≤ 1 := Nat.le_of_lt_succ (Nat.mod_lt _ (by norm_num))
      have hr2Q : ((e.state.currentBar % 2 : Nat) : ℚ) ≤ 1 := by exact_mod_cast hr2
      have hr2Q0 : (0 : ℚ) ≤ ((e.state.currentBar % 2 : Nat) : ℚ) := by positivity
      have hBQ1 : (1 : ℚ) ≤ (e.state.beatsPerBar : ℚ) := by exact_mod_cast hB1
      obtain ⟨h1, h2, h3⟩ := mul_period_spec (60 / e.state.bpm * 1000)
        ((e.state.beatsPerBar : ℚ) * 2 -
          (((e.state.currentBar % 2 : Nat) : ℚ) * (e.state.beatsPerBar : ℚ)
            + (e.state.currentBeat : ℚ)))
        ((e.state.beatsPerBar : ℚ) * 2) hms
        (by nlinarith) (by nlinarith)
      refine ⟨h1, h2, h3.trans ?_⟩
      rw [sub_eq_self]
      constructor
      · intro h
        have hBQ0 : (0 : ℚ) ≤ (e.state.beatsPerBar : ℚ) := by linarith
        have hprod : (0 : ℚ) ≤ ((e.state.currentBar % 2 : Nat) : ℚ) * (e.state.beatsPerBar : ℚ) :=
          mul_nonneg hr2Q0 hBQ0
        have hx0 : ((e.state.currentBar % 2 : Nat) : ℚ) * (e.state.beatsPerBar : ℚ) = 0 := by
          linarith
        have hbz : e.state.currentBeat = 0 := by
          have : (e.state.currentBeat : ℚ) = 0 := by linarith
          exact_mod_cast this
        refine ⟨hbz, ?_⟩
        rcases mul_eq_zero.mp hx0 with h2 | h2
        · exact_mod_cast h2
        · exfalso
          rw [h2] at hBQ1
          linarith
      · rintro ⟨hbz, hrz⟩
        rw [hbz, hrz]
        push_cast
        ring
  | fourBar =>
      simp only [ClockEngine.getTimeUntilNextQuantization, quantizationPeriod,
        onQuantizationBoundary]
      have hr4 : e.state.currentBar % 4 ≤ 3 := Nat.le_of_lt_succ (Nat.mod_lt _ (by norm_num))
      have hr4Q : ((e.state.currentBar % 4 : Nat) : ℚ) ≤ 3 := by exact_mod_cast hr4
      have hr4Q0 : (0 : ℚ) ≤ ((e.state.currentBar % 4 : Nat) : ℚ) := by positivity
      have hBQ1 : (1 : ℚ) ≤ (e.state.beatsPerBar : ℚ) := by exact_mod_cast hB1
      obtain ⟨h1, h2, h3⟩ := mul_period_spec (60 / e.state.bpm * 1000)
        ((e.state.beatsPerBar : ℚ) * 4 -
          (((e.state.currentBar % 4 : Nat) : ℚ) * (e.state.beatsPerBar : ℚ)
            + (e.state.currentBeat : ℚ)))
        ((e.state.beatsPerBar : ℚ) * 4) hms
        (by nlinarith) (by nlinarith)
      refine ⟨h1, h2, h3.trans ?_⟩
      rw [sub_eq_self]
      constructor
      · intro h
        have hBQ0 : (0 : ℚ) ≤ (e.state.beatsPerBar : ℚ) := by linarith
        have hprod : (0 : ℚ) ≤ ((e.state.currentBar % 4 : Nat) : ℚ) * (e.state.beatsPerBar : ℚ) :=
          mul_nonneg hr4Q0 hBQ0
        have hx0 : ((e.state.currentBar % 4 : Nat) : ℚ) * (e.state.beatsPerBar : ℚ) = 0 := by
          linarith
        have hbz : e.state.currentBeat = 0 := by
          have : (e.state.currentBeat : ℚ) = 0 := by linarith
          exact_mod_cast this
        refine ⟨hbz, ?_⟩
        rcases mul_eq_zero.mp hx0 with h2 | h2
        · exact_mod_cast h2
        · exfalso
          rw [h2] at hBQ1
          linarith
      · rintro ⟨hbz, hrz⟩
        rw [hbz, hrz]
        push_cast
        ring

/-- Witness for the amended C2 at the initial clock (bar 0, beat 0,
BPM 120) with `q = bar`. -/
theorem getTimeUntilNextQuantization_range_witness :
    0 < ClockEngine.initial.getTimeUntilNextQuantization .bar ∧
    ClockEngine.initial.getTimeUntilNextQuantization .bar ≤
      quantizationPeriod ClockEngine.initial .bar ∧
    (ClockEngine.initial.getTimeUntilNextQuantization .bar =
        quantizationPeriod ClockEngine.initial .bar ↔
      onQuantizationBoundary ClockEngine.initial .bar) := by
  exact getTimeUntilNextQuantization_range ClockEngine.initial .bar
    (by norm_num [ClockEngine.initial]) (by norm_num [ClockEngine.initial])
    (by norm_num [ClockEngine.initial])

/-- The clock operations of the public API together with the external-event
ingestors; `now` stands for `Date.now()` at the call. -/
inductive ClockOp where
  | start (now : Nat)
  | stop
  | reset
  | setBpm (bpm : ℚ)
  | setClockSource (source : ClockSource) (now : Nat)
  | midiTick (now : Nat)
  | midiStart (now : Nat)
  | midiStop
  | midiContinue (now : Nat)

/-- Dispatch one clock operation. -/
def ClockOp.apply : ClockOp → ClockEngine → ClockEngine
  | .start now, e => e.start now
  | .stop, e => e.stop
  | .reset, e => e.reset
  | .setBpm bpm, e => e.setBpm bpm
  | .setClockSource source now, e => e.setClockSource source now
  | .midiTick now, e => e.processMidiClockTick now
  | .midiStart now, e => e.processMidiStart now
  | .midiStop, e => e.processMidiStop
  | .midiContinue now, e => e.processMidiContinue now

/-- Run a sequence of clock operations from a starting engine. -/
def runClockOps (ops : List ClockOp) (e : ClockEngine) : ClockEngine :=
  ops.foldl (fun e op => op.apply e) e

/-- The position invariant of the clock: the beat lies inside the bar and
the tick accumulator inside the beat. -/
def ClockInvariant (e : ClockEngine) : Prop :=
  e.state.currentBeat < e.state.beatsPerBar ∧ e.tickCount < e.state.ppqn

/-- `advanceBeat` preserves the position invariant and does not change
`beatsPerBar`, `ppqn` or `tickCount`. -/
theorem advanceBeat_invariant (e : ClockEngine) (h : ClockInvariant e) :
    ClockInvariant e.advanceBeat ∧
    e.advanceBeat.state.beatsPerBar = e.state.beatsPerBar ∧
    e.advanceBeat.state.ppqn = e.state.ppqn ∧
    e.advanceBeat.tickCount = e.tickCount := by
  obtain ⟨hbeat, htick⟩ := h
  unfold ClockEngine.advanceBeat
  dsimp only
  split_ifs <;> exact ⟨⟨by simp <;> omega, by simpa using htick⟩, by simp, by simp, by simp⟩

/-- Every clock operation preserves the position invariant. -/
theorem clockOp_preserves_invariant (op : ClockOp) (e : ClockEngine)
    (h : ClockInvariant e) : ClockInvariant (op.apply e) := by
  obtain ⟨hbeat, htick⟩ := h
  cases op with
  | start now =>
      simp only [ClockOp.apply, ClockEngine.start, ClockEngine.startInternalClock]
      split_ifs <;> exact ⟨hbeat, htick⟩
  | stop =>
      simp only [ClockOp.apply, ClockEngine.stop, ClockEngine.stopInternalClock]
      split_ifs <;> exact ⟨hbeat, htick⟩
  | reset =>
      unfold ClockOp.apply ClockEngine.reset
      constructor
      · simp only
        omega
      · simp only
        omega
  | setBpm bpm =>
      simp only [ClockOp.apply, ClockEngine.setBpm, ClockEngine.stopInternalClock,
        ClockEngine.startInternalClock]
      split_ifs <;> exact ⟨hbeat, htick⟩
  | setClockSource source now =>
      simp only [ClockOp.apply, ClockEngine.setClockSource, ClockEngine.stop,
        ClockEngine.start, ClockEngine.stopInternalClock, ClockEngine.startInternalClock]
      split_ifs <;> exact ⟨hbeat, htick⟩
  | midiTick now =>
      simp only [ClockOp.apply, ClockEngine.processMidiClockTick]
      split_ifs with h1 h2
      · exact ⟨hbeat, htick⟩
      · have := advanceBeat_invariant
          { e with state := { e.state with lastTickTime := now }, tickCount := 0 }
          ⟨hbeat, by simpa using Nat.lt_of_lt_of_le (Nat.zero_lt_of_lt htick) le_rfl⟩
        exact this.1
      · exact ⟨hbeat, by simp at h2 ⊢; omega⟩
  | midiStart now =>
      simp only [ClockOp.apply, ClockEngine.processMidiStart, ClockEngine.reset,
        ClockEngine.start, ClockEngine.startInternalClock]
      split_ifs <;>
        exact ⟨by simpa using Nat.zero_lt_of_lt hbeat, by simpa using Nat.zero_lt_of_lt htick⟩
  | midiStop =>
      simp only [ClockOp.apply, ClockEngine.processMidiStop, ClockEngine.stop,
        ClockEngine.stopInternalClock]
      split_ifs <;> exact ⟨hbeat, htick⟩
  | midiContinue now =>
      simp only [ClockOp.apply, ClockEngine.processMidiContinue, ClockEngine.start,
        ClockEngine.startInternalClock]
      split_ifs <;> exact ⟨hbeat, htick⟩

/-- The position invariant holds in every state reachable from the initial
engine. -/
theorem runClockOps_invariant (ops : List ClockOp) :
    ClockInvariant (runClockOps ops ClockEngine.initial) := by
  suffices h : ∀ e, ClockInvariant e → ClockInvariant (runClockOps ops e) by
    exact h ClockEngine.initial ⟨by norm_num [ClockEngine.initial], by norm_num [ClockEngine.initial]⟩
  induction ops with
  | nil => intro e he; exact he
  | cons op rest ih =>
      intro e he
      exact ih _ (clockOp_preserves_invariant op e he)

/-- How one ingested tick transforms an arbitrary engine in midi-source
mode: the accumulator increments; on the `ppqn`-th tick it resets and the
beat advances; when the beat reaches `beatsPerBar` it resets and the bar
advances. -/
theorem processMidiClockTick_step (e : ClockEngine) (now : Nat)
    (hsrc : e.state.source = ClockSource.midi) :
    (e.tickCount + 1 < e.state.ppqn →
      (e.processMidiClockTick now).tickCount = e.tickCount + 1 ∧
      (e.processMidiClockTick now).state.currentBeat = e.state.currentBeat ∧
      (e.processMidiClockTick now).state.currentBar = e.state.currentBar) ∧
    (e.tickCount + 1 = e.state.ppqn →
      (e.processMidiClockTick now).tickCount = 0 ∧
      (e.state.currentBeat + 1 < e.state.beatsPerBar →
        (e.processMidiClockTick now).state.currentBeat = e.state.currentBeat + 1 ∧
        (e.processMidiClockTick now).state.currentBar = e.state.currentBar) ∧
      (e.state.currentBeat + 1 = e.state.beatsPerBar →
        (e.processMidiClockTick now).state.currentBeat = 0 ∧
        (e.processMidiClockTick now).state.currentBar = e.state.currentBar + 1)) := by
  constructor
  · intro hlt
    unfold ClockEngine.processMidiClockTick ClockEngine.advanceBeat
    dsimp only
    split_ifs <;> first | exact ⟨rfl, rfl, rfl⟩ | omega | simp_all
  · intro heq
    refine ⟨?_, ?_, ?_⟩
    · unfold ClockEngine.processMidiClockTick ClockEngine.advanceBeat
      dsimp only
      split_ifs <;> first | rfl | omega | simp_all
    · intro hblt
      unfold ClockEngine.processMidiClockTick ClockEngine.advanceBeat
      dsimp only
      split_ifs <;> first | exact ⟨rfl, rfl⟩ | omega | simp_all
    · intro hbeq
      unfold ClockEngine.processMidiClockTick ClockEngine.advanceBeat
      dsimp only
      split_ifs <;> first | exact ⟨rfl, rfl⟩ | omega | simp_all

/-- C4: in every clock state reachable from the initial state by the clock
operations, `current_beat ∈ [0, beats_per_bar)`, `current_bar ≥ 0` and the
tick accumulator lies in `[0, ppqn)`; and in midi-source mode each ingested
tick increments the accumulator, every `ppqn` ticks the accumulator resets
and the beat advances, and when the beat reaches `beats_per_bar` it resets
to 0 and the bar advances by one. -/
theorem clock_reachable_state_spec (ops : List ClockOp) :
    (runClockOps ops ClockEngine.initial).state.currentBeat <
      (runClockOps ops ClockEngine.initial).state.beatsPerBar ∧
    0 ≤ (runClockOps ops ClockEngine.initial).state.currentBar ∧
    (runClockOps ops ClockEngine.initial).tickCount <
      (runClockOps ops ClockEngine.initial).state.ppqn ∧
    ∀ now : Nat,
      (runClockOps ops ClockEngine.initial).state.source = ClockSource.midi →
      ((runClockOps ops ClockEngine.initial).tickCount + 1 <
          (runClockOps ops ClockEngine.initial).state.ppqn →
        ((runClockOps ops ClockEngine.initial).processMidiClockTick now).tickCount =
          (runClockOps ops ClockEngine.initial).tickCount + 1 ∧
        ((runClockOps ops ClockEngine.initial).processMidiClockTick now).state.currentBeat =
          (runClockOps ops ClockEngine.initial).state.currentBeat ∧
        ((runClockOps ops ClockEngine.initial).processMidiClockTick now).state.currentBar =
          (runClockOps ops ClockEngine.initial).state.currentBar) ∧
      ((runClockOps ops ClockEngine.initial).tickCount + 1 =
          (runClockOps ops ClockEngine.initial).state.ppqn →
        ((runClockOps ops ClockEngine.initial).processMidiClockTick now).tickCount = 0 ∧
        ((runClockOps ops ClockEngine.initial).state.currentBeat + 1 <
            (runClockOps ops ClockEngine.initial).state.beatsPerBar →
          ((runClockOps ops ClockEngine.initial).processMidiClockTick now).state.currentBeat =
            (runClockOps ops ClockEngine.initial).state.currentBeat + 1 ∧
          ((runClockOps ops ClockEngine.initial).processMidiClockTick now).state.currentBar =
            (runClockOps ops ClockEngine.initial).state.currentBar) ∧
        ((runClockOps ops ClockEngine.initial).state.currentBeat + 1 =
            (runClockOps ops ClockEngine.initial).state.beatsPerBar →
          ((runClockOps ops ClockEngine.initial).processMidiClockTick now).state.currentBeat = 0 ∧
          ((runClockOps ops ClockEngine.initial).processMidiClockTick now).state.currentBar =
            (runClockOps ops ClockEngine.initial).state.currentBar + 1)) := by
  obtain ⟨hbeat, htick⟩ := runClockOps_invariant ops
  exact ⟨hbeat, Nat.zero_le _, htick,
    fun now hsrc => processMidiClockTick_step (runClockOps ops ClockEngine.initial) now hsrc⟩

/-- Witness for C4: after switching the source to midi, the invariant holds
and the 24th ingested tick resets the accumulator. -/
theorem clock_reachable_state_spec_witness :
    (runClockOps [ClockOp.setClockSource ClockSource.midi 0] ClockEngine.initial).state.currentBeat <
      (runClockOps [ClockOp.setClockSource ClockSource.midi 0] ClockEngine.initial).state.beatsPerBar ∧
    ((runClockOps [ClockOp.setClockSource ClockSource.midi 0] ClockEngine.initial).processMidiClockTick 7).tickCount =
      (runClockOps [ClockOp.setClockSource ClockSource.midi 0] ClockEngine.initial).tickCount + 1 := by
  obtain ⟨h1, _, _, hchar⟩ :=
    clock_reachable_state_spec [ClockOp.setClockSource ClockSource.midi 0]
  exact ⟨h1, ((hchar 7 (by decide)).1 (by decide)).1⟩

/-- Counterexample to C5 as stated: with the source left at `internal`, the
ingest operation `processMidiStart` does NOT leave the clock state
unchanged — it starts the (stopped) initial clock.  Only
`processMidiClockTick` checks the source. -/
theorem processMidiStart_acts_under_internal_source :
    ClockEngine.initial.state.source = ClockSource.internal ∧
    ClockEngine.initial.state.isRunning = false ∧
    (ClockEngine.initial.processMidiStart 0).state.isRunning = true ∧
    ClockEngine.initial.processMidiStart 0 ≠ ClockEngine.initial := by
  exact ⟨rfl, rfl, rfl, by decide⟩

/-- C5 (amended): among the external-event ingest operations only
`processMidiClockTick` is source-guarded — with source=internal it leaves
the engine unchanged.  `processMidiStart`, `processMidiStop` and
`processMidiContinue` act regardless of the source: Start resets the
position to bar 0, beat 0 and starts the clock; Stop stops it preserving
the position; Continue starts it without resetting the position. -/
theorem midi_ingest_source_behavior :
    (∀ (e : ClockEngine) (now : Nat), e.state.source = ClockSource.internal →
      e.processMidiClockTick now = e) ∧
    (∀ (e : ClockEngine) (now : Nat),
      (e.processMidiStart now).state.currentBar = 0 ∧
      (e.processMidiStart now).state.currentBeat = 0 ∧
      (e.processMidiStart now).tickCount = 0 ∧
      (e.processMidiStart now).state.isRunning = true) ∧
    (∀ e : ClockEngine,
      e.processMidiStop.state.isRunning = false ∧
      e.processMidiStop.state.currentBar = e.state.currentBar ∧
      e.processMidiStop.state.currentBeat = e.state.currentBeat) ∧
    (∀ (e : ClockEngine) (now : Nat),
      (e.processMidiContinue now).state.isRunning = true ∧
      (e.processMidiContinue now).state.currentBar = e.state.currentBar ∧
      (e.processMidiContinue now).state.currentBeat = e.state.currentBeat) := by
  refine ⟨?_, ?_, ?_, ?_⟩
  · intro e now hsrc
    unfold ClockEngine.processMidiClockTick
    rw [if_pos]
    rw [hsrc]
    intro h
    cases h
  · intro e now
    unfold ClockEngine.processMidiStart ClockEngine.start ClockEngine.reset
      ClockEngine.startInternalClock
    dsimp only
    split_ifs <;> exact ⟨rfl, rfl, rfl, by simp_all⟩
  · intro e
    unfold ClockEngine.processMidiStop ClockEngine.stop ClockEngine.stopInternalClock
    dsimp only
    split_ifs <;> simp_all
  · intro e now
    unfold ClockEngine.processMidiContinue ClockEngine.start ClockEngine.startInternalClock
    dsimp only
    split_ifs <;> simp_all

/-- Witness for the amended C5 at the initial engine. -/
theorem midi_ingest_source_behavior_witness :
    ClockEngine.initial.processMidiClockTick 3 = ClockEngine.initial ∧
    (ClockEngine.initial.processMidiStart 3).state.currentBar = 0 ∧
    ClockEngine.initial.processMidiStop.state.isRunning = false ∧
    (ClockEngine.initial.processMidiContinue 3).state.isRunning = true := by
  obtain ⟨h1, h2, h3, h4⟩ := midi_ingest_source_behavior
  exact ⟨h1 ClockEngine.initial 3 rfl, (h2 ClockEngine.initial 3).1,
    (h3 ClockEngine.initial).1, (h4 ClockEngine.initial 3).1⟩

/-- C6: `cancelActiveTransition` is idempotent; afterwards
`isTransitionActive` is false and the scheduled-transition and
interpolation observers return empty; the snapshot engine — in particular
the current-value shadow — is exactly what it was before the call. -/
theorem cancelActiveTransition_spec (te : TransitionEngine) :
    te.cancelActiveTransition.cancelActiveTransition = te.cancelActiveTransition ∧
    te.cancelActiveTransition.isTransitionActive = false ∧
    te.cancelActiveTransition.getScheduledTransition = none ∧
    te.cancelActiveTransition.getInterpolationState = none ∧
    te.cancelActiveTransition.snapshotEngine = te.snapshotEngine ∧
    te.cancelActiveTransition.snapshotEngine.currentValues = te.snapshotEngine.currentValues :=
  ⟨rfl, rfl, rfl, rfl, rfl, rfl⟩

/-- A stored snapshot with one enabled parameter `track_1_volume = 100`,
used as concrete input. -/
def sampleSnapshotS1 : Snapshot :=
  { id := "s1", name := "Snapshot A", bank := 0, slot := 0,
    parameters := [{ parameterId := "track_1_volume", value := 100, isEnabled := true }],
    oneShotMessages := [], createdAt := 0, modifiedAt := 0 }

/-- A transition engine whose store holds exactly `sampleSnapshotS1`. -/
def sampleEngine : TransitionEngine :=
  { clockEngine := ClockEngine.initial,
    snapshotEngine := { snapshots := [sampleSnapshotS1], currentValues := [] } }

/-- C8: the `repeatMode` branch of `executeDropImmediate` is a placeholder —
drops triggered with `repeat=true` behave exactly like `repeat=false`; no
new Drop is scheduled and no timer armed when the Drop fires, so the flag
is silently dropped.  Evaluated in particular at a concrete stored snapshot
with one parameter. -/
theorem executeDropImmediate_repeat_is_noop :
    (∀ (te : TransitionEngine) (s : Snapshot),
      te.executeDropImmediate s true = te.executeDropImmediate s false) ∧
    (sampleEngine.executeDropImmediate sampleSnapshotS1 true).1.scheduledTransition = none ∧
    (sampleEngine.executeDropImmediate sampleSnapshotS1 true).1.transitionTimerActive = false ∧
    (sampleEngine.executeDropImmediate sampleSnapshotS1 true).1.interpolationTimerActive = false :=
  ⟨fun _ _ => rfl, rfl, rfl, rfl⟩

/-- Appending a snapshot with a key not present in the list makes it the
`find?` result for that key. -/
theorem find_append_fresh (l : List Snapshot) (snap : Snapshot) (key : String)
    (h : ∀ s ∈ l, s.id ≠ key) (hsnap : snap.id = key) :
    (l ++ [snap]).find? (fun s => s.id == key) = some snap := by
  induction l with
  | nil => simp [List.find?, hsnap]
  | cons a t ih =>
      rw [List.cons_append, List.find?_cons_of_neg, ih]
      · intro s hs
        exact h s (List.mem_cons_of_mem a hs)
      · simp [h a (List.mem_cons_self a t)]

/-- Replacing by a key not present in the list is the identity map. -/
theorem map_replace_fresh (l : List Snapshot) (u : Snapshot) (key : String)
    (h : ∀ s ∈ l, s.id ≠ key) :
    l.map (fun t => if t.id == key then u else t) = l := by
  induction l with
  | nil => rfl
  | cons a t ih =>
      simp only [List.map_cons]
      rw [if_neg (by simp [h a (List.mem_cons_self a t)]),
        ih fun s hs => h s (List.mem_cons_of_mem a hs)]

/-- Filtering out a key not present in the list keeps every element. -/
theorem filter_fresh_keep (l : List Snapshot) (key : String)
    (h : ∀ s ∈ l, s.id ≠ key) :
    l.filter (fun t => !(t.id == key)) = l :=
  List.filter_eq_self.mpr fun a ha => by simp [h a ha]

/-- C10: every per-parameter emission during a Jump frame leaves the
snapshot store unchanged: `sendParameterValue` creates a temporary snapshot
at bank 0, slot 0 solely to encode the message and deletes it by its fresh
id before returning, so the stored snapshot list afterwards equals the list
before, and the current-value shadow is also untouched. -/
theorem sendParameterValue_store_unchanged (te : TransitionEngine)
    (parameterId : String) (value : Nat) (freshId : String) (now : Nat)
    (hfresh : ∀ s ∈ te.snapshotEngine.snapshots, s.id ≠ freshId) :
    (te.sendParameterValue parameterId value freshId now).1.snapshotEngine.snapshots =
      te.snapshotEngine.snapshots ∧
    (te.sendParameterValue parameterId value freshId now).1.snapshotEngine.currentValues =
      te.snapshotEngine.currentValues := by
  have hany : (te.snapshotEngine.snapshots.any fun t => t.id == freshId) = false := by
    simp only [List.any_eq_false]
    intro s hs
    simpa using hfresh s hs
  have h1 : (te.snapshotEngine.createSnapshot 0 0 "temp" freshId now).1.snapshots =
      te.snapshotEngine.snapshots ++
        [{ id := freshId, name := "temp", bank := 0, slot := 0, parameters := [],
           oneShotMessages := [], createdAt := now, modifiedAt := now }] := by
    simp only [SnapshotEngine.createSnapshot, snapshotsSet, hany]
    simp
  have hget : (te.snapshotEngine.createSnapshot 0 0 "temp" freshId now).1.getSnapshot freshId =
      some { id := freshId, name := "temp", bank := 0, slot := 0, parameters := [],
             oneShotMessages := [], createdAt := now, modifiedAt := now } := by
    rw [SnapshotEngine.getSnapshot, h1]
    exact find_append_fresh _ _ _ hfresh rfl
  refine ⟨?_, ?_⟩
  · show (((te.snapshotEngine.createSnapshot 0 0 "temp" freshId now).1.updateSnapshotParameter
        freshId parameterId value true now).1.deleteSnapshot freshId).snapshots =
      te.snapshotEngine.snapshots
    rw [SnapshotEngine.updateSnapshotParameter, hget]
    simp only [SnapshotEngine.deleteSnapshot]
    rw [h1, List.map_append, map_replace_fresh _ _ _ hfresh]
    simp only [List.map_cons, List.map_nil, beq_self_eq_true, if_true]
    rw [List.filter_append, filter_fresh_keep _ _ hfresh]
    simp
  · show (((te.snapshotEngine.createSnapshot 0 0 "temp" freshId now).1.updateSnapshotParameter
        freshId parameterId value true now).1.deleteSnapshot freshId).currentValues =
      te.snapshotEngine.currentValues
    rw [SnapshotEngine.updateSnapshotParameter, hget]
    rfl

/-- Witness for C10: sending `track_1_volume = 42` through a temporary
snapshot with fresh id `tmp-1` leaves the sample store unchanged. -/
theorem sendParameterValue_store_unchanged_witness :
    (sampleEngine.sendParameterValue "track_1_volume" 42 "tmp-1" 5).1.snapshotEngine.snapshots =
      sampleEngine.snapshotEngine.snapshots ∧
    (sampleEngine.sendParameterValue "track_1_volume" 42 "tmp-1" 5).1.snapshotEngine.currentValues =
      sampleEngine.snapshotEngine.currentValues :=
  sendParameterValue_store_unchanged sampleEngine "track_1_volume" 42 "tmp-1" 5 (by decide)

/-- `Map.get` after `Map.set` at the same key. -/
theorem mapGet_mapSet_self (m : List (String × Nat)) (key : String) (value : Nat) :
    mapGet (mapSet m key value) key = some value := by
  unfold mapGet mapSet
  split_ifs with h
  · induction m with
    | nil => simp at h
    | cons a t ih =>
        simp only [List.any_cons, Bool.or_eq_true] at h
        by_cases ha : a.1 == key
        · simp [List.find?, ha]
        · simp only [List.map_cons, ha, if_false]
          rw [List.find?_cons_of_neg _ (by simpa using ha)]
          rcases h with h | h
          · exact absurd h (by simpa using ha)
          · exact ih h
  · induction m with
    | nil => simp [List.find?]
    | cons a t ih =>
        simp only [List.any_cons, Bool.or_eq_true] at h
        push_neg at h
        rw [List.cons_append, List.find?_cons_of_neg _ (by simpa using h.1)]
        exact ih (by simpa using h.2)

/-- Replacing the entries of one key does not change `find?` for another. -/
theorem find_map_replace (t : List (String × Nat)) (key other : String) (value : Nat)
    (h : other ≠ key) :
    List.find? (fun e => e.1 == key) (t.map fun e => if e.1 == other then (other, value) else e) =
      List.find? (fun e => e.1 == key) t := by
  induction t with
  | nil => rfl
  | cons a t ih =>
      simp only [List.map_cons, List.find?_cons]
      by_cases ha : a.1 = other
      · rw [if_pos (by simpa using ha)]
        have h1 : ((other, value).1 == key) = false := by simpa using h
        have h2 : (a.1 == key) = false := by simp [ha, h]
        rw [h1, h2]
        simpa using ih
      · rw [if_neg (by simpa using ha)]
        by_cases hak : a.1 = key
        · simp [hak]
        · have h2 : (a.1 == key) = false := by simpa using hak
          rw [h2]
          simpa using ih

/-- `Map.get` after `Map.set` at a different key. -/
theorem mapGet_mapSet_ne (m : List (String × Nat)) (key other : String) (value : Nat)
    (h : other ≠ key) :
    mapGet (mapSet m other value) key = mapGet m key := by
  unfold mapGet mapSet
  split_ifs with hany
  · rw [find_map_replace m key other value h]
  · rw [List.find?_append]
    cases hfind : m.find? fun e => e.1 == key with
    | some u => simp
    | none =>
        have h1 : ((other, value).1 == key) = false := by simpa using h
        simp [List.find?, h1]

/-- Running the shadow-update loop of `executeDropImmediate` over an
association list: the last entry for a key wins, clamped to [0,127];
keys not written keep their previous shadow value. -/
theorem shadow_after_updates (l : List (String × Nat)) (se : SnapshotEngine) (p : String) :
    ((l.foldl (fun se t => se.updateCurrentValue t.1 t.2) se).getCurrentValue p) =
      match l.reverse.find? fun t => t.1 == p with
      | some t => some (max 0 (min 127 t.2))
      | none => se.getCurrentValue p := by
  induction l generalizing se with
  | nil => rfl
  | cons a t ih =>
      rw [List.foldl_cons, ih]
      rw [List.reverse_cons, List.find?_append]
      cases hfind : t.reverse.find? fun x => x.1 == p with
      | some u => simp
      | none =>
          simp only [Option.none_orElse]
          by_cases hap : a.1 == p
          · have : (a.1, a.2) = a := rfl
            simp only [List.find?, hap]
            show (se.updateCurrentValue a.1 a.2).getCurrentValue p = some (max 0 (min 127 a.2))
            unfold SnapshotEngine.updateCurrentValue SnapshotEngine.getCurrentValue
            have hap' : a.1 = p := by simpa using hap
            rw [← hap']
            exact mapGet_mapSet_self _ _ _
          · simp only [List.find?, hap]
            show (se.updateCurrentValue a.1 a.2).getCurrentValue p = se.getCurrentValue p
            unfold SnapshotEngine.updateCurrentValue SnapshotEngine.getCurrentValue
            exact mapGet_mapSet_ne _ _ _ _ (by simpa using hap)

/-- Replacing one key's entries leaves the key list unchanged. -/
theorem map_fst_replace (t : List (String × Nat)) (k : String) (v : Nat) :
    ((t.map fun e => if e.1 == k then (k, v) else e).map Prod.fst) = t.map Prod.fst := by
  induction t with
  | nil => rfl
  | cons a t ih =>
      simp only [List.map_cons]
      by_cases hak : a.1 = k
      · rw [if_pos (by simpa using hak)]
        simpa [hak] using ih
      · rw [if_neg (by simpa using hak)]
        simpa using ih

/-- The key list after `Map.set`. -/
theorem mapSet_keys (m : List (String × Nat)) (k : String) (v : Nat) :
    (mapSet m k v).map Prod.fst =
      if m.any (fun e => e.1 == k) then m.map Prod.fst else m.map Prod.fst ++ [k] := by
  unfold mapSet
  split_ifs with h
  · exact map_fst_replace m k v
  · simp

/-- `Map.set` preserves distinctness of keys. -/
theorem mapSet_keys_nodup (m : List (String × Nat)) (k : String) (v : Nat)
    (h : (m.map Prod.fst).Nodup) : ((mapSet m k v).map Prod.fst).Nodup := by
  rw [mapSet_keys]
  split_ifs with hany
  · exact h
  · have hk : k ∉ m.map Prod.fst := by
      intro hmem
      obtain ⟨e, he, hek⟩ := List.mem_map.mp hmem
      have : (m.any fun e => e.1 == k) = true := List.any_eq_true.mpr ⟨e, he, by simp [hek]⟩
      simp [this] at hany
    simp [List.nodup_append, h, hk]

/-- The target map built by `getInterpolationTargets` has distinct keys. -/
theorem targets_fold_keys_nodup (params : List SnapshotParameter) (acc : List (String × Nat))
    (h : (acc.map Prod.fst).Nodup) :
    (((params.foldl
        (fun targets param =>
          if param.isEnabled then mapSet targets param.parameterId param.value else targets)
        acc)).map Prod.fst).Nodup := by
  induction params generalizing acc with
  | nil => exact h
  | cons a t ih =>
      rw [List.foldl_cons]
      apply ih
      split_ifs with ha
      · exact mapSet_keys_nodup _ _ _ h
      · exact h

/-- Folding over parameters none of which carry the key `p` does not touch
the `p` entry of the target map. -/
theorem targets_fold_get_zero (params : List SnapshotParameter) (acc : List (String × Nat))
    (p : String) (hz : params.countP (fun q => q.parameterId == p) = 0) :
    mapGet (params.foldl
        (fun targets param =>
          if param.isEnabled then mapSet targets param.parameterId param.value else targets)
        acc) p = mapGet acc p := by
  induction params generalizing acc with
  | nil => rfl
  | cons a t ih =>
      rw [List.countP_cons] at hz
      have haz : (a.parameterId == p) = false := by
        by_cases hap : a.parameterId = p
        · simp [hap] at hz
        · simpa using hap
      rw [haz] at hz
      rw [List.foldl_cons, ih _ (by simpa using hz)]
      split_ifs with he
      · exact mapGet_mapSet_ne _ _ _ _ (by simpa using haz)
      · rfl

/-- If `(p, v, enabled)` occurs in the parameter list and `p` occurs only
once, the built target map maps `p` to `v`. -/
theorem targets_fold_get (params : List SnapshotParameter) (acc : List (String × Nat))
    (p : String) (v : Nat)
    (hmem : ({ parameterId := p, value := v, isEnabled := true } : SnapshotParameter) ∈ params)
    (honce : params.countP (fun q => q.parameterId == p) = 1) :
    mapGet (params.foldl
        (fun targets param =>
          if param.isEnabled then mapSet targets param.parameterId param.value else targets)
        acc) p = some v := by
  induction params generalizing acc with
  | nil => cases hmem
  | cons a t ih =>
      rw [List.foldl_cons]
      by_cases hap : a.parameterId = p
      · have hct : t.countP (fun q => q.parameterId == p) = 0 := by
          rw [List.countP_cons] at honce
          have h1 : (a.parameterId == p) = true := by simpa using hap
          rw [h1] at honce
          simpa using honce
        have ha : a = { parameterId := p, value := v, isEnabled := true } := by
          rcases List.mem_cons.mp hmem with h | h
          · exact h.symm
          · exfalso
            have : 0 < t.countP fun q => q.parameterId == p :=
              List.countP_pos.mpr ⟨_, h, by simp⟩
            omega
        subst ha
        rw [targets_fold_get_zero t _ p hct]
        simp only [if_true]
        exact mapGet_mapSet_self _ _ _
      · have hmem' : ({ parameterId := p, value := v, isEnabled := true } : SnapshotParameter) ∈ t := by
          rcases List.mem_cons.mp hmem with h | h
          · exfalso
            apply hap
            rw [← h]
          · exact h
        have honce' : t.countP (fun q => q.parameterId == p) = 1 := by
          rw [List.countP_cons] at honce
          have h1 : (a.parameterId == p) = false := by simpa using hap
          rw [h1] at honce
          simpa using honce
        exact ih _ hmem' honce'

/-- In an association list with distinct keys, the entry found from the
right agrees with the entry found from the left. -/
theorem nodup_get_last (l : List (String × Nat)) (p : String) (v : Nat)
    (hnd : (l.map Prod.fst).Nodup) (hget : mapGet l p = some v) :
    l.reverse.find? (fun t => t.1 == p) = some (p, v) := by
  induction l with
  | nil => simp [mapGet, List.find?] at hget
  | cons a t ih =>
      rw [List.reverse_cons, List.find?_append]
      unfold mapGet at hget
      rw [List.find?_cons] at hget
      rw [List.map_cons, List.nodup_cons] at hnd
      by_cases hap : a.1 = p
      · have h1 : (a.1 == p) = true := by simpa using hap
        rw [h1] at hget
        have hav : a.2 = v := by simpa using hget
        have hpt : p ∉ t.map Prod.fst := by
          rw [← hap]
          exact hnd.1
        have hnone : t.reverse.find? (fun x => x.1 == p) = none := by
          rw [List.find?_eq_none]
          intro x hx
          have : x.1 ∈ t.map Prod.fst :=
            List.mem_map.mpr ⟨x, List.mem_reverse.mp hx, rfl⟩
          simp only [beq_iff_eq]
          intro hxp
          rw [hxp] at this
          exact hpt this
        rw [hnone]
        simp only [Option.none_orElse, List.find?, h1]
        cases a
        simp_all
      · have h1 : (a.1 == p) = false := by simpa using hap
        rw [h1] at hget
        have hget' : mapGet t p = some v := hget
        rw [ih hnd.2 hget']
        simp

/-- The parameter-derived part of a Drop's message list contains the
encoding of `(p, v)` exactly once, provided `p` occurs once, is enabled
with value `v`, and no other enabled entry encodes to the same wire
message. -/
theorem count_filterMap_enabled (params : List SnapshotParameter) (p : String) (v : Nat)
    (m : MIDIMessage)
    (henc : parameterToMidiMessage p v = some m)
    (hmem : ({ parameterId := p, value := v, isEnabled := true } : SnapshotParameter) ∈ params)
    (honce : params.countP (fun q => q.parameterId == p) = 1)
    (hnoalias : ∀ q ∈ params, q.isEnabled = true → q.parameterId ≠ p →
      parameterToMidiMessage q.parameterId q.value ≠ some m) :
    ((params.filterMap fun param =>
        if param.isEnabled then parameterToMidiMessage param.parameterId param.value
        else none).count m) = 1 := by
  induction params with
  | nil => cases hmem
  | cons a t ih =>
      by_cases hap : a.parameterId = p
      · have hct : t.countP (fun q => q.parameterId == p) = 0 := by
          rw [List.countP_cons] at honce
          have h1 : (a.parameterId == p) = true := by simpa using hap
          rw [h1] at honce
          simpa using honce
        have ha : a = { parameterId := p, value := v, isEnabled := true } := by
          rcases List.mem_cons.mp hmem with h | h
          · exact h.symm
          · exfalso
            have h2 : 0 < t.countP fun q => q.parameterId == p :=
              List.countP_pos.mpr ⟨_, h, by simp⟩
            omega
        subst ha
        have hzero : ((t.filterMap fun param =>
            if param.isEnabled then parameterToMidiMessage param.parameterId param.value
            else none).count m) = 0 := by
          rw [List.count_eq_zero]
          intro hmm
          obtain ⟨q, hq, hfq⟩ := List.mem_filterMap.mp hmm
          by_cases he : q.isEnabled
          · rw [if_pos he] at hfq
            have hqp : q.parameterId ≠ p := by
              have h3 := List.countP_eq_zero.mp hct q hq
              simpa using h3
            exact hnoalias q (List.mem_cons_of_mem _ hq) he hqp hfq
          · rw [if_neg he] at hfq
            cases hfq
        rw [List.filterMap_cons]
        simp [henc, hzero]
      · have hmem' : ({ parameterId := p, value := v, isEnabled := true } :
            SnapshotParameter) ∈ t := by
          rcases List.mem_cons.mp hmem with h | h
          · exfalso
            apply hap
            rw [← h]
          · exact h
        have honce' : t.countP (fun q => q.parameterId == p) = 1 := by
          rw [List.countP_cons] at honce
          have h1 : (a.parameterId == p) = false := by simpa using hap
          rw [h1] at honce
          simpa using honce
        have hnoalias' : ∀ q ∈ t, q.isEnabled = true → q.parameterId ≠ p →
            parameterToMidiMessage q.parameterId q.value ≠ some m :=
          fun q hq => hnoalias q (List.mem_cons_of_mem a hq)
        rw [List.filterMap_cons]
        cases hfa : (if a.isEnabled then parameterToMidiMessage a.parameterId a.value
            else none) with
        | none => simpa using ih hmem' honce' hnoalias'
        | some b =>
            have hb : b ≠ m := by
              by_cases he : a.isEnabled
              · rw [if_pos he] at hfa
                intro hbm
                rw [hbm] at hfa
                exact hnoalias a (List.mem_cons_self a t) he hap hfa
              · rw [if_neg he] at hfa
                cases hfa
            simpa [List.count_cons, hb] using ih hmem' honce' hnoalias'

/-- C1 (amended): for a stored snapshot `s` and an enabled parameter
`(p, v)` of `s` whose id is registered, occurs only once in `s`'s parameter
list, and whose wire encoding coincides neither with another enabled
entry's encoding nor with a one-shot message of `s`, firing the Drop
leaves `current(p) = v` and delivers exactly one wire message equal to the
encoding of `(p, v)`. -/
theorem executeDrop_parameter_delivery (te : TransitionEngine) (s : Snapshot)
    (p : String) (v : Nat) (r : Bool) (m : MIDIMessage)
    (hstored : te.snapshotEngine.getSnapshot s.id = some s)
    (hmem : ({ parameterId := p, value := v, isEnabled := true } : SnapshotParameter) ∈ s.parameters)
    (honce : s.parameters.countP (fun q => q.parameterId == p) = 1)
    (hv : v ≤ 127)
    (henc : parameterToMidiMessage p v = some m)
    (hnoalias : ∀ q ∈ s.parameters, q.isEnabled = true → q.parameterId ≠ p →
      parameterToMidiMessage q.parameterId q.value ≠ some m)
    (hnoshot : ∀ m' ∈ s.oneShotMessages, m' ≠ m) :
    (te.executeDropImmediate s r).1.snapshotEngine.getCurrentValue p = some v ∧
    ((te.executeDropImmediate s r).2.1.count m) = 1 := by
  have htg : te.snapshotEngine.getInterpolationTargets s.id =
      s.parameters.foldl
        (fun targets param =>
          if param.isEnabled then mapSet targets param.parameterId param.value else targets)
        [] := by
    unfold SnapshotEngine.getInterpolationTargets
    rw [hstored]
  constructor
  · show ((te.snapshotEngine.getInterpolationTargets s.id).foldl
        (fun se t => se.updateCurrentValue t.1 t.2) te.snapshotEngine).getCurrentValue p =
      some v
    rw [shadow_after_updates]
    have hget : mapGet (te.snapshotEngine.getInterpolationTargets s.id) p = some v := by
      rw [htg]
      exact targets_fold_get _ _ _ _ hmem honce
    have hnd : ((te.snapshotEngine.getInterpolationTargets s.id).map Prod.fst).Nodup := by
      rw [htg]
      exact targets_fold_keys_nodup _ _ (by simp)
    rw [nodup_get_last _ _ _ hnd hget]
    show some (max 0 (min 127 v)) = some v
    have hclamp : max 0 (min 127 v) = v := by omega
    rw [hclamp]
  · show ((te.snapshotEngine.getSnapshotMidiMessages s.id).count m) = 1
    have hmsg : te.snapshotEngine.getSnapshotMidiMessages s.id =
        (s.parameters.filterMap fun param =>
          if param.isEnabled then parameterToMidiMessage param.parameterId param.value
          else none) ++ s.oneShotMessages := by
      unfold SnapshotEngine.getSnapshotMidiMessages
      rw [hstored]
    have h2 : (s.oneShotMessages.count m) = 0 := by
      rw [List.count_eq_zero]
      intro hmm
      exact hnoshot m hmm rfl
    rw [hmsg, List.count_append,
      count_filterMap_enabled s.parameters p v m henc hmem honce hnoalias, h2]

/-- Witness for the amended C1: dropping the sample snapshot delivers
`CC7 = 100` on channel 1 exactly once and sets the shadow of
`track_1_volume` to 100. -/
theorem executeDrop_parameter_delivery_witness :
    (sampleEngine.executeDropImmediate sampleSnapshotS1 false).1.snapshotEngine.getCurrentValue
      "track_1_volume" = some 100 ∧
    ((sampleEngine.executeDropImmediate sampleSnapshotS1 false).2.1.count
      { type := .cc, channel := 1, value := 100, cc := some 7 }) = 1 :=
  executeDrop_parameter_delivery sampleEngine sampleSnapshotS1 "track_1_volume" 100 false
    { type := .cc, channel := 1, value := 100, cc := some 7 }
    (by decide) (by decide) (by decide) (by decide) (by decide) (by decide) (by decide)

/-- A stored snapshot whose one-shot list repeats the wire encoding of its
own enabled parameter `(tempo, 64)`. -/
def aliasSnapshot : Snapshot :=
  { id := "s2", name := "Snapshot B", bank := 0, slot := 1,
    parameters := [{ parameterId := "tempo", value := 64, isEnabled := true }],
    oneShotMessages := [{ type := .cc, channel := 1, value := 64, cc := some 80 }],
    createdAt := 0, modifiedAt := 0 }

/-- A transition engine whose store holds exactly `aliasSnapshot`. -/
def aliasEngine : TransitionEngine :=
  { clockEngine := ClockEngine.initial,
    snapshotEngine := { snapshots := [aliasSnapshot], currentValues := [] } }

/-- Counterexample to C1 as stated: `aliasSnapshot` is stored, its enabled
parameter `(tempo, 64)` is registered and occurs exactly once, yet the Drop
delivers the wire message encoding `(tempo, 64)` twice — once from the
parameter list and once from a coinciding one-shot message. -/
theorem executeDrop_duplicate_delivery :
    aliasEngine.snapshotEngine.getSnapshot "s2" = some aliasSnapshot ∧
    ({ parameterId := "tempo", value := 64, isEnabled := true } : SnapshotParameter) ∈
      aliasSnapshot.parameters ∧
    (aliasSnapshot.parameters.countP fun q => q.parameterId == "tempo") = 1 ∧
    parameterToMidiMessage "tempo" 64 =
      some { type := .cc, channel := 1, value := 64, cc := some 80 } ∧
    ((aliasEngine.executeDropImmediate aliasSnapshot false).2.1.count
      { type := .cc, channel := 1, value := 64, cc := some 80 }) = 2 := by
  refine ⟨by decide, by decide, by decide, by decide, by decide⟩
